import Mathlib

/-!
Shallow embedding of the acquisition–buffering–persistence pipeline of
`src/program.py` (an OPC-UA bioreactor data logger), together with proofs of
the specification's testable properties.

Modelling conventions:
* Python `float` timestamps and sensor values are modelled as `ℚ`.
* A Python `dict` (a Reading, and equally a row handed to the bulk insert)
  is an association list `List (String × Value)`; `dget` models `row.get(k)`
  (returning `None`, i.e. `Value.null`, for a missing key).
* The sqlite table `sensordata` is a `Store := List Dict` of rows over the
  fixed column schema `schemaCols`; `INSERT OR IGNORE` on the `timestamp`
  primary key is `insertOrIgnore` (a `NULL` key never conflicts, as in
  sqlite's non-INTEGER primary keys).
* Deterministic error paths of the code are part of the model: an `INSERT`
  naming a non-column key is rejected by sqlite and the caught exception
  discards the whole batch; the unresampled export path with a truthy start
  anchor fails with a caught `KeyError: 'datetime'`.
* Other exceptions are modelled by explicit `Bool` failure flags or
  `Except`.
-/

namespace Bioreactor

/-- A sqlite/Python value: `NULL`/`None`, a numeric value, or a text value. -/
inductive Value where
  | null
  | num (q : ℚ)
  | text (s : String)
deriving DecidableEq, Repr

/-- A Python dict with string keys, as an association list (first match wins).
Used both for a polled Reading and for a row of the sqlite table. -/
abbrev Dict := List (String × Value)

/-- `dget d k` models Python `d.get(k)`: the value bound to `k`, or
`None` (`Value.null`) when `k` is absent. -/
def dget : Dict → String → Value
  | [], _ => .null
  | (k', v) :: rest, k => if k' = k then v else dget rest k

/-- The keys of a dict, in insertion order (Python `d.keys()`). -/
def dkeys (d : Dict) : List String := d.map Prod.fst

/-- Python `sorted(...)` on a list of strings (a stable ascending sort). -/
def sortStrings (l : List String) : List String := l.insertionSort (· ≤ ·)

/-- The fixed column schema of the `sensordata` table created by
`DatabaseManager._create_table` (`timestamp REAL PRIMARY KEY, ...`). -/
def schemaCols : List String :=
  ["timestamp", "ph", "ph_setpoint", "do", "do_setpoint", "temperature", "temp_setpoint",
   "variable1", "variable2", "variable3", "variable4", "variable5", "variable6", "variable7",
   "bioreactor_status"]

/-- The table row produced for one dict `d` by an ACCEPTED
`INSERT OR IGNORE INTO sensordata (keys) VALUES (...)` with parameter list
`[row.get(k) for k in keys]`: every schema column named in `keys` receives
`d.get k`, every other schema column is `NULL`. Only meaningful when every
key of `keys` is a schema column — `insert_bulk_data` checks exactly that
before using this projection, since a statement naming a non-column key is
rejected by sqlite wholesale rather than projected. -/
def toTableRow (keys : List String) (d : Dict) : Dict :=
  schemaCols.map (fun c => (c, if c ∈ keys then dget d c else .null))

/-- The `timestamp` (primary key) of a table row. -/
def rowTs (r : Dict) : Value := dget r "timestamp"

/-- The `sensordata` table: a list of rows. -/
abbrev Store := List Dict

/-- A row with primary key `t` is present in the store. -/
def hasTs (s : Store) (t : Value) : Prop := ∃ r ∈ s, rowTs r = t

instance (s : Store) (t : Value) : Decidable (hasTs s t) := by
  unfold hasTs; infer_instance

/-- The primary-key uniqueness invariant of the `sensordata` table:
no two rows share a `timestamp`. -/
def tsUnique (s : Store) : Prop := s.Pairwise (fun r1 r2 => rowTs r1 ≠ rowTs r2)

instance (s : Store) : Decidable (tsUnique s) := by
  unfold tsUnique; infer_instance

/-- `INSERT OR IGNORE` of a single row: if a row with the same non-NULL
primary key (`timestamp`) is already present, the insert is silently skipped;
otherwise the row is appended. A `NULL` timestamp never conflicts: sqlite
admits multiple `NULL`s in a non-INTEGER primary-key column. -/
def insertOrIgnore (s : Store) (r : Dict) : Store :=
  if rowTs r ≠ Value.null ∧ hasTs s (rowTs r) then s else s ++ [r]

/-- `DatabaseManager.insert_bulk_data`: on an empty list, do nothing; otherwise
take `keys = sorted(data_list[0].keys())` (from the FIRST dict only) and run
`INSERT OR IGNORE INTO sensordata (keys) VALUES (...)` once per dict, with
parameters `[row.get(k) for k in keys]`, in one transaction. When some key is
not a column of `sensordata`, sqlite rejects the statement at prepare time
(`OperationalError: no such column`), the `except` catches and logs it, and
the WHOLE batch is discarded — the store is unchanged. (The program's own
readings hit this path: their `temp` and `run_start` keys have no matching
column, `temp`'s column being named `temperature`.) -/
def insert_bulk_data (s : Store) (data_list : List Dict) : Store :=
  match data_list with
  | [] => s
  | d :: rest =>
    if (sortStrings (dkeys d)).all (fun k => decide (k ∈ schemaCols)) then
      ((d :: rest).map (toTableRow (sortStrings (dkeys d)))).foldl insertOrIgnore s
    else s

/-! ### Basic lemmas about `insertOrIgnore` and the fold -/

theorem any_rowTs_iff_hasTs (s : Store) (t : Value) :
    (s.any (fun r0 => decide (rowTs r0 = t)) = true) ↔ hasTs s t := by
  simp [hasTs, List.any_eq_true]

theorem mem_insertOrIgnore (s : Store) (r r0 : Dict) (h : r0 ∈ s) :
    r0 ∈ insertOrIgnore s r := by
  unfold insertOrIgnore
  split
  · exact h
  · exact List.mem_append_left _ h

theorem hasTs_insertOrIgnore_mono {s : Store} {t : Value} (r : Dict) (h : hasTs s t) :
    hasTs (insertOrIgnore s r) t := by
  obtain ⟨r0, hr0, ht⟩ := h
  exact ⟨r0, mem_insertOrIgnore s r r0 hr0, ht⟩

theorem hasTs_insertOrIgnore_self (s : Store) (r : Dict) :
    hasTs (insertOrIgnore s r) (rowTs r) := by
  unfold insertOrIgnore
  split
  · next h => exact h.2
  · exact ⟨r, List.mem_append_right _ (List.mem_singleton_self r), rfl⟩

theorem tsUnique_insertOrIgnore {s : Store} (r : Dict) (hr : rowTs r ≠ Value.null)
    (h : tsUnique s) : tsUnique (insertOrIgnore s r) := by
  unfold insertOrIgnore
  split
  · exact h
  · next hnot =>
    have hnot' : ¬ hasTs s (rowTs r) := fun hh => hnot ⟨hr, hh⟩
    rw [tsUnique, List.pairwise_append]
    refine ⟨h, List.pairwise_singleton _ _, ?_⟩
    intro a ha b hb
    rw [List.mem_singleton] at hb
    intro hab
    rw [hb] at hab
    exact hnot' ⟨a, ha, hab⟩

theorem mem_foldl_insertOrIgnore (rows : List Dict) (s : Store) (r0 : Dict) (h : r0 ∈ s) :
    r0 ∈ rows.foldl insertOrIgnore s := by
  induction rows generalizing s with
  | nil => exact h
  | cons r rest ih => exact ih _ (mem_insertOrIgnore s r r0 h)

theorem hasTs_foldl_insertOrIgnore_mono (rows : List Dict) {s : Store} {t : Value}
    (h : hasTs s t) : hasTs (rows.foldl insertOrIgnore s) t := by
  induction rows generalizing s with
  | nil => exact h
  | cons r rest ih => exact ih (hasTs_insertOrIgnore_mono r h)

theorem tsUnique_foldl_insertOrIgnore (rows : List Dict) {s : Store}
    (hnn : ∀ r ∈ rows, rowTs r ≠ Value.null) (h : tsUnique s) :
    tsUnique (rows.foldl insertOrIgnore s) := by
  induction rows generalizing s with
  | nil => exact h
  | cons r rest ih =>
    exact ih (fun r' hr' => hnn r' (List.mem_cons_of_mem r hr'))
      (tsUnique_insertOrIgnore r (hnn r (List.mem_cons_self r rest)) h)

theorem hasTs_foldl_insertOrIgnore_of_mem (rows : List Dict) (s : Store) (r : Dict)
    (h : r ∈ rows) : hasTs (rows.foldl insertOrIgnore s) (rowTs r) := by
  induction rows generalizing s with
  | nil => cases h
  | cons r1 rest ih =>
    rcases List.mem_cons.mp h with h1 | h1
    · subst h1
      exact hasTs_foldl_insertOrIgnore_mono rest (hasTs_insertOrIgnore_self s r)
    · exact ih _ h1

/-! ### Lemmas about `insert_bulk_data` -/

theorem mem_sortStrings {l : List String} {a : String} : a ∈ sortStrings l ↔ a ∈ l :=
  List.mem_insertionSort _

/-- A key bound to a non-`NULL` value is present in the dict. -/
theorem dget_ne_null_mem (d : Dict) (k : String) (h : dget d k ≠ Value.null) :
    k ∈ dkeys d := by
  induction d with
  | nil => exact absurd rfl h
  | cons p rest ih =>
    obtain ⟨k', v⟩ := p
    by_cases hk : k' = k
    · rw [dkeys, List.map_cons, hk]
      exact List.mem_cons_self _ _
    · have h' : dget rest k ≠ Value.null := by
        simpa [dget, hk] using h
      rw [dkeys, List.map_cons]
      exact List.mem_cons_of_mem _ (ih h')

/-- When every key of the first record is a schema column, the `INSERT`
statement names only existing columns and sqlite does not reject it. -/
theorem all_keys_schema (l : List String) (h : ∀ k ∈ l, k ∈ schemaCols) :
    (sortStrings l).all (fun k => decide (k ∈ schemaCols)) = true := by
  rw [List.all_eq_true]
  intro k hk
  exact decide_eq_true (h k (mem_sortStrings.mp hk))

theorem mem_insert_bulk_data (s : Store) (batch : List Dict) (r0 : Dict) (h : r0 ∈ s) :
    r0 ∈ insert_bulk_data s batch := by
  match batch with
  | [] => exact h
  | d :: rest =>
    show r0 ∈ (if ((sortStrings (dkeys d)).all fun k => decide (k ∈ schemaCols)) = true
      then ((d :: rest).map (toTableRow (sortStrings (dkeys d)))).foldl insertOrIgnore s
      else s)
    split
    · exact mem_foldl_insertOrIgnore _ s r0 h
    · exact h

theorem hasTs_insert_bulk_data_mono (s : Store) (batch : List Dict) {t : Value}
    (h : hasTs s t) : hasTs (insert_bulk_data s batch) t := by
  match batch with
  | [] => exact h
  | d :: rest =>
    show hasTs (if ((sortStrings (dkeys d)).all fun k => decide (k ∈ schemaCols)) = true
      then ((d :: rest).map (toTableRow (sortStrings (dkeys d)))).foldl insertOrIgnore s
      else s) t
    split
    · exact hasTs_foldl_insertOrIgnore_mono _ h
    · exact h

/-- The primary key of the projected table row is the dict's `timestamp` value,
provided the key set contains `"timestamp"`. -/
theorem rowTs_toTableRow (keys : List String) (d : Dict) (h : "timestamp" ∈ keys) :
    rowTs (toTableRow keys d) = dget d "timestamp" := by
  simp [rowTs, toTableRow, schemaCols, dget, h]

theorem tsUnique_insert_bulk_data (s : Store) (batch : List Dict)
    (hts : ∀ d ∈ batch, dget d "timestamp" ≠ Value.null) (h : tsUnique s) :
    tsUnique (insert_bulk_data s batch) := by
  match batch with
  | [] => exact h
  | d1 :: rest =>
    show tsUnique (if ((sortStrings (dkeys d1)).all fun k => decide (k ∈ schemaCols)) = true
      then ((d1 :: rest).map (toTableRow (sortStrings (dkeys d1)))).foldl insertOrIgnore s
      else s)
    split
    · refine tsUnique_foldl_insertOrIgnore _ ?_ h
      intro r hr
      rcases List.mem_map.mp hr with ⟨d', hd', hr'⟩
      have hk : "timestamp" ∈ sortStrings (dkeys d1) :=
        mem_sortStrings.mpr
          (dget_ne_null_mem d1 _ (hts d1 (List.mem_cons_self d1 rest)))
      rw [← hr', rowTs_toTableRow _ _ hk]
      exact hts d' hd'
    · exact h

/-- Every dict of a batch whose first dict carries a `timestamp` key and only
schema-column keys ends up with a row under its own `timestamp` value. -/
theorem hasTs_insert_bulk_data_of_mem (s : Store) (d1 : Dict) (rest : List Dict)
    (d : Dict) (hd : d ∈ d1 :: rest)
    (hk : "timestamp" ∈ dkeys d1)
    (hsch : ∀ k ∈ dkeys d1, k ∈ schemaCols) :
    hasTs (insert_bulk_data s (d1 :: rest)) (dget d "timestamp") := by
  show hasTs (if ((sortStrings (dkeys d1)).all fun k => decide (k ∈ schemaCols)) = true
    then ((d1 :: rest).map (toTableRow (sortStrings (dkeys d1)))).foldl insertOrIgnore s
    else s) (dget d "timestamp")
  rw [if_pos (all_keys_schema (dkeys d1) hsch)]
  have hk' : "timestamp" ∈ sortStrings (dkeys d1) := mem_sortStrings.mpr hk
  have := hasTs_foldl_insertOrIgnore_of_mem
    ((d1 :: rest).map (toTableRow (sortStrings (dkeys d1)))) s
    (toTableRow (sortStrings (dkeys d1)) d)
    (List.mem_map_of_mem _ hd)
  rw [rowTs_toTableRow _ _ hk'] at this
  exact this

/-! ### Folding `insert_bulk_data` over a sequence of batches -/

theorem mem_foldl_bulk (batches : List (List Dict)) (s : Store) (r : Dict) (h : r ∈ s) :
    r ∈ batches.foldl insert_bulk_data s := by
  induction batches generalizing s with
  | nil => exact h
  | cons b rest ih => exact ih _ (mem_insert_bulk_data s b r h)

theorem hasTs_foldl_bulk_mono (batches : List (List Dict)) {s : Store} {t : Value}
    (h : hasTs s t) : hasTs (batches.foldl insert_bulk_data s) t := by
  induction batches generalizing s with
  | nil => exact h
  | cons b rest ih => exact ih (hasTs_insert_bulk_data_mono s b h)

theorem tsUnique_foldl_bulk (batches : List (List Dict)) {s : Store}
    (hts : ∀ b ∈ batches, ∀ d ∈ b, dget d "timestamp" ≠ Value.null)
    (h : tsUnique s) : tsUnique (batches.foldl insert_bulk_data s) := by
  induction batches generalizing s with
  | nil => exact h
  | cons b rest ih =>
    exact ih (fun b' hb' => hts b' (List.mem_cons_of_mem b hb'))
      (tsUnique_insert_bulk_data s b (hts b (List.mem_cons_self b rest)) h)

/-- The keys of the first record of a batch: the column list of the
generated `INSERT` statement. -/
def firstKeys : List Dict → List String
  | [] => []
  | d :: _ => dkeys d

/-- C1 amended (at-most-once persistence): starting from any store whose rows
have pairwise-distinct timestamps, after any sequence of `insert_bulk_data`
calls whose dicts carry non-`NULL` timestamps and whose first records name
only `sensordata` columns, (a) the store still has at most one row per
timestamp, (b) every row already present is still present unchanged (never
overwritten), and (c) every dict of every batch has a row under its own
timestamp — hence exactly one row per distinct timestamp. Without the
column-name restriction sqlite rejects the whole batch (see the
counterexample); (a) and (b) need no such restriction, a rejected batch
changing nothing. -/
theorem at_most_once_persistence (s0 : Store) (batches : List (List Dict))
    (h0 : tsUnique s0)
    (hts : ∀ b ∈ batches, ∀ d ∈ b, dget d "timestamp" ≠ Value.null)
    (hsch : ∀ b ∈ batches, ∀ k ∈ firstKeys b, k ∈ schemaCols) :
    tsUnique (batches.foldl insert_bulk_data s0) ∧
      (∀ r ∈ s0, r ∈ batches.foldl insert_bulk_data s0) ∧
      (∀ b ∈ batches, ∀ d ∈ b,
        hasTs (batches.foldl insert_bulk_data s0) (dget d "timestamp")) := by
  refine ⟨tsUnique_foldl_bulk batches hts h0,
    fun r hr => mem_foldl_bulk batches s0 r hr, ?_⟩
  induction batches generalizing s0 with
  | nil => intro b hb; cases hb
  | cons b1 rest ih =>
    intro b hb d hd
    rcases List.mem_cons.mp hb with h1 | h1
    · rw [h1] at hd
      rcases b1 with _ | ⟨d1, rest1⟩
      · cases hd
      · rw [List.foldl_cons]
        refine hasTs_foldl_bulk_mono rest ?_
        refine hasTs_insert_bulk_data_of_mem s0 d1 rest1 d hd ?_ ?_
        · exact dget_ne_null_mem d1 _
            (hts (d1 :: rest1) (List.mem_cons_self _ _) d1 (List.mem_cons_self _ _))
        · exact hsch (d1 :: rest1) (List.mem_cons_self _ _)
    · rw [List.foldl_cons]
      exact ih (insert_bulk_data s0 b1)
        (tsUnique_insert_bulk_data s0 b1 (hts b1 (List.mem_cons_self b1 rest)) h0)
        (fun b' hb' => hts b' (List.mem_cons_of_mem b1 hb'))
        (fun b' hb' => hsch b' (List.mem_cons_of_mem b1 hb')) b h1 d hd

/-- A reading of the shape the program actually produces: its channel key is
`temp` (from the config key `temp_nodeid`), but the table's column is named
`temperature`, so the generated `INSERT` names a non-existent column. -/
def rdTemp : Dict := [("timestamp", Value.num 1), ("temp", Value.num 37)]

/-- C1 counterexample: a batch holding one reading with a fresh, distinct
timestamp inserts NOTHING — the `temp` key makes sqlite raise
`no such column`, the exception is swallowed and the store stays empty, so
the store does not contain one row per distinct batch timestamp. -/
theorem at_most_once_persistence_counterexample :
    dget rdTemp "timestamp" = Value.num 1 ∧
      insert_bulk_data [] [rdTemp] = ([] : Store) := by
  decide!

/-- A sample dict used to instantiate `at_most_once_persistence`. -/
def wd1 : Dict := [("timestamp", Value.num 1), ("ph", Value.num 7)]

/-- A second sample dict used to instantiate `at_most_once_persistence`. -/
def wd2 : Dict := [("timestamp", Value.num 2), ("ph", Value.num (71/10))]

/-- Witness for C1: two flushes whose batches overlap on timestamp 1 leave a
store with distinct timestamps that covers both readings. -/
theorem at_most_once_persistence_witness :
    tsUnique (([[wd1], [wd1, wd2]] : List (List Dict)).foldl insert_bulk_data []) ∧
      hasTs (([[wd1], [wd1, wd2]] : List (List Dict)).foldl insert_bulk_data [])
        (dget wd1 "timestamp") ∧
      hasTs (([[wd1], [wd1, wd2]] : List (List Dict)).foldl insert_bulk_data [])
        (dget wd2 "timestamp") :=
  ⟨(at_most_once_persistence [] [[wd1], [wd1, wd2]] (by decide!) (by decide!)
      (by decide!)).1,
   (at_most_once_persistence [] [[wd1], [wd1, wd2]] (by decide!) (by decide!)
      (by decide!)).2.2 [wd1] (by decide!) wd1 (by decide!),
   (at_most_once_persistence [] [[wd1], [wd1, wd2]] (by decide!) (by decide!)
      (by decide!)).2.2 [wd1, wd2] (by decide!) wd2 (by decide!)⟩

/-! ### The acquisition thread's cache, flush and shutdown path -/

/-- An observable event of the acquisition thread's shutdown path. -/
inductive Ev where
  | stopPolling
  | timerStop
  | flush
  | disconnect
  | statusEmit (s : String)
deriving DecidableEq, Repr

/-- The mutable state shared by the poll loop and the flusher: the
write-behind cache `data_cache` and the sqlite store. -/
structure ThreadState where
  data_cache : List Dict
  store : Store
deriving DecidableEq, Repr

/-- `DatabaseManager.insert_bulk_data` including its `try/except`: when the
database operation raises (`dbFail = true`), the exception is caught and
logged and the method returns normally, leaving the store unchanged; there is
no success indication in the return type. -/
def insert_bulk_data_exc (dbFail : Bool) (s : Store) (data_list : List Dict) : Store :=
  match data_list with
  | [] => s
  | _ => if dbFail then s else insert_bulk_data s data_list

theorem insert_bulk_data_exc_false (s : Store) (l : List Dict) :
    insert_bulk_data_exc false s l = insert_bulk_data s l := by
  cases l <;> rfl

/-- `OpcClientThread._flush_cache_to_db`: if the cache is empty, do nothing;
otherwise snapshot the cache, clear the original, and hand the snapshot to
`insert_bulk_data` (whose internal failure `dbFail` is caught there). -/
def flush_cache_to_db (dbFail : Bool) (st : ThreadState) : ThreadState :=
  if st.data_cache.isEmpty then st
  else { data_cache := [],
         store := insert_bulk_data_exc dbFail st.store st.data_cache }

/-- The `finally` block of `OpcClientThread.run`: stop the flush timer, run the
final synchronous cache flush, disconnect when connected, then emit the
terminal "Disconnected" status. Returns the final state and the event trace. -/
def run_shutdown (dbFail : Bool) (is_connected : Bool) (st : ThreadState) :
    ThreadState × List Ev :=
  (flush_cache_to_db dbFail st,
   [Ev.timerStop, Ev.flush] ++ (if is_connected then [Ev.disconnect] else [])
     ++ [Ev.statusEmit "Disconnected"])

/-- A clean stop: the poll loop observes `running = False` and exits
(`stopPolling`), then the `finally` block of `run` executes. -/
def clean_stop_trace (dbFail : Bool) (is_connected : Bool) (st : ThreadState) : List Ev :=
  Ev.stopPolling :: (run_shutdown dbFail is_connected st).2

/-- Conditional no-data-loss on clean stop (supporting lemma): the final
synchronous flush of the `finally` block lands every cached reading,
PROVIDED the first cached reading carries a `timestamp` key and only
`sensordata` column names — the condition under which the generated `INSERT`
is accepted. The program's own readings violate it (key `temp`, column
`temperature`): see `clean_stop_temp_reading_lost`. -/
theorem no_data_loss_on_clean_stop (st : ThreadState) (is_connected : Bool)
    (hk : "timestamp" ∈ firstKeys st.data_cache)
    (hsch : ∀ k ∈ firstKeys st.data_cache, k ∈ schemaCols) :
    ∀ d ∈ st.data_cache,
      hasTs (run_shutdown false is_connected st).1.store (dget d "timestamp") := by
  intro d hd
  show hasTs (flush_cache_to_db false st).store (dget d "timestamp")
  unfold flush_cache_to_db
  split
  · next hemp =>
    rw [List.isEmpty_iff] at hemp
    rw [hemp] at hd
    cases hd
  · show hasTs (insert_bulk_data_exc false st.store st.data_cache) (dget d "timestamp")
    rw [insert_bulk_data_exc_false]
    rcases hc : st.data_cache with _ | ⟨d1, rest⟩
    · rw [hc] at hd
      cases hd
    · rw [hc] at hd hk hsch
      exact hasTs_insert_bulk_data_of_mem st.store d1 rest d hd hk hsch

/-- A thread state whose cache holds one reading of the program's real shape
(`temp` channel key), about to be stopped cleanly. -/
def cstTemp : ThreadState :=
  { data_cache := [[("timestamp", Value.num 7), ("temp", Value.num 36),
      ("ph", Value.num 7)]],
    store := [] }

/-- C2 (code bug): a clean stop with one real-shaped reading in the cache
persists NOTHING. The reading's `temp` key (from the config key
`temp_nodeid`) has no matching column — the table names it `temperature` —
so the final flush's `INSERT` raises `no such column: temp`;
`insert_bulk_data` swallows the exception after `_flush_cache_to_db` has
already cleared the cache, the store stays empty, and the reading present in
the cache at stop time is lost, against the claimed zero-data-loss
guarantee. -/
theorem clean_stop_temp_reading_lost :
    cstTemp.data_cache.length = 1 ∧
      dget [("timestamp", Value.num 7), ("temp", Value.num 36), ("ph", Value.num 7)]
        "timestamp" = Value.num 7 ∧
      (run_shutdown false true cstTemp).1.store = [] ∧
      (run_shutdown false true cstTemp).1.data_cache = [] := by
  decide!

/-- C9 (flush discards a failed batch): when the bulk insert raises, the cache
has already been cleared, the store is unchanged, and no reading of the
snapshot ever reaches the store — nothing is retried or re-queued. -/
theorem flush_discards_failed_batch (st : ThreadState)
    (hne : st.data_cache ≠ []) :
    (flush_cache_to_db true st).data_cache = [] ∧
      (flush_cache_to_db true st).store = st.store ∧
      (∀ t : Value, ¬ hasTs st.store t → ¬ hasTs (flush_cache_to_db true st).store t) := by
  have hemp : st.data_cache.isEmpty = false := by
    cases h : st.data_cache with
    | nil => exact absurd h hne
    | cons a l => rfl
  have hst : flush_cache_to_db true st =
      { data_cache := [], store := insert_bulk_data_exc true st.store st.data_cache } := by
    unfold flush_cache_to_db
    rw [hemp]
    rfl
  have hsto : insert_bulk_data_exc true st.store st.data_cache = st.store := by
    cases h : st.data_cache with
    | nil => exact absurd h hne
    | cons a l => rfl
  rw [hst, hsto]
  exact ⟨rfl, rfl, fun t h => h⟩

/-- A sample thread state used to instantiate `flush_discards_failed_batch`. -/
def wst9 : ThreadState :=
  { data_cache := [[("timestamp", Value.num 42), ("temperature", Value.num 37)]],
    store := [] }

/-- Witness for C9: a one-reading cache flushed into a failing database is
dropped: the cache is cleared and the store is unchanged (still empty). -/
theorem flush_discards_failed_batch_witness :
    (flush_cache_to_db true wst9).data_cache = [] ∧
      (flush_cache_to_db true wst9).store = wst9.store :=
  ⟨(flush_discards_failed_batch wst9 (by decide!)).1,
   (flush_discards_failed_batch wst9 (by decide!)).2.1⟩

/-- The empty thread state, used to instantiate the shutdown-order trace. -/
def st0 : ThreadState := { data_cache := [], store := [] }

/-- C7 counterexample: on a connected clean stop the final flush happens
BEFORE the disconnect, refuting the claimed order
stop polling → disconnect → final flush → terminal status. -/
theorem shutdown_order_counterexample :
    clean_stop_trace false true st0 =
      [Ev.stopPolling, Ev.timerStop, Ev.flush, Ev.disconnect,
       Ev.statusEmit "Disconnected"] ∧
      (clean_stop_trace false true st0).indexOf Ev.flush <
        (clean_stop_trace false true st0).indexOf Ev.disconnect := by
  constructor
  · rfl
  · decide!

/-- C7 amended: the clean-stop order is stop polling → stop the flush timer →
final flush → disconnect → terminal "Disconnected" status; in particular the
terminal status is reported only after the final flush has run. -/
theorem shutdown_order_amended (dbFail : Bool) (st : ThreadState) :
    clean_stop_trace dbFail true st =
      [Ev.stopPolling, Ev.timerStop, Ev.flush, Ev.disconnect,
       Ev.statusEmit "Disconnected"] ∧
      (clean_stop_trace dbFail true st).indexOf Ev.flush <
        (clean_stop_trace dbFail true st).indexOf (Ev.statusEmit "Disconnected") := by
  refine ⟨rfl, ?_⟩
  show (([Ev.stopPolling, Ev.timerStop, Ev.flush, Ev.disconnect,
       Ev.statusEmit "Disconnected"] : List Ev)).indexOf Ev.flush <
      ([Ev.stopPolling, Ev.timerStop, Ev.flush, Ev.disconnect,
       Ev.statusEmit "Disconnected"] : List Ev).indexOf (Ev.statusEmit "Disconnected")
  decide!

/-! ### Column derivation of the bulk insert (C3) -/

theorem dget_map_keys (l : List String) (f : String → Value) (c : String) (hc : c ∈ l) :
    dget (l.map (fun k => (k, f k))) c = f c := by
  induction l with
  | nil => cases hc
  | cons k rest ih =>
    simp only [List.map_cons, dget]
    by_cases h : k = c
    · rw [if_pos h, h]
    · rw [if_neg h]
      rcases List.mem_cons.mp hc with h1 | h1
      · exact absurd h1.symm h
      · exact ih h1

/-- Column semantics of the projected row: a schema column named in `keys`
receives the dict's value under it (null when the dict lacks it), every other
schema column is null. -/
theorem dget_toTableRow (keys : List String) (d : Dict) (c : String) (hc : c ∈ schemaCols) :
    dget (toTableRow keys d) c = if c ∈ keys then dget d c else Value.null :=
  dget_map_keys schemaCols (fun c => if c ∈ keys then dget d c else Value.null) c hc

/-- Inserting rows with pairwise-distinct timestamps, none already present,
appends them all: the all-or-nothing case of the insert-or-ignore fold. -/
theorem foldl_insertOrIgnore_fresh (rows : List Dict) (s : Store)
    (hU : rows.Pairwise (fun r1 r2 => rowTs r1 ≠ rowTs r2))
    (hF : ∀ r ∈ rows, ¬ hasTs s (rowTs r)) :
    rows.foldl insertOrIgnore s = s ++ rows := by
  induction rows generalizing s with
  | nil => simp
  | cons r rest ih =>
    have hins : insertOrIgnore s r = s ++ [r] := by
      unfold insertOrIgnore
      rw [if_neg]
      intro hc
      exact hF r (List.mem_cons_self r rest) hc.2
    have hrest : ∀ r' ∈ rest, ¬ hasTs (s ++ [r]) (rowTs r') := by
      intro r' hr' hhas
      rcases hhas with ⟨r0, hr0, ht⟩
      rcases List.mem_append.mp hr0 with h0 | h0
      · exact hF r' (List.mem_cons_of_mem r hr') ⟨r0, h0, ht⟩
      · rw [List.mem_singleton] at h0
        rw [h0] at ht
        exact (List.pairwise_cons.mp hU).1 r' hr' ht
    rw [List.foldl_cons, hins, ih (s ++ [r]) (List.Pairwise.of_cons hU) hrest,
      List.append_assoc]
    rfl

/-- The bulk insert as the spec's §4.3 words prescribe it, for comparison with
the code's `insert_bulk_data`: the column set is the union of the keys seen
across the whole batch, a record's absent fields defaulting to null. -/
def insert_bulk_data_unionSpec (s : Store) (data_list : List Dict) : Store :=
  match data_list with
  | [] => s
  | _ =>
    let keys := sortStrings ((data_list.map dkeys).flatten.dedup)
    (data_list.map (toTableRow keys)).foldl insertOrIgnore s

/-- A record with only a timestamp, as produced by a cycle where every node
read failed is not: first record of the C3 counterexample batch. -/
def cd1 : Dict := [("timestamp", Value.num 1)]

/-- A record that also carries a `ph` value: second record of the C3
counterexample batch. -/
def cd2 : Dict := [("timestamp", Value.num 2), ("ph", Value.num 7)]

/-- C3 counterexample: the code derives the column set from the FIRST record
only, so the `ph` field of the second record is silently dropped — the result
differs from the union-of-keys semantics the claim states. -/
theorem column_derivation_counterexample :
    insert_bulk_data [] [cd1, cd2] ≠ insert_bulk_data_unionSpec [] [cd1, cd2] ∧
      (insert_bulk_data [] [cd1, cd2]).map (fun r => dget r "ph")
        = [Value.null, Value.null] ∧
      (insert_bulk_data_unionSpec [] [cd1, cd2]).map (fun r => dget r "ph")
        = [Value.null, Value.num 7] := by
  decide!

/-- C3 amended: for a non-empty batch whose FIRST record's keys all name
`sensordata` columns, the bulk insert writes one row per record in a single
insert-or-ignore pass keyed on timestamp, using as its column set the sorted
keys of that first record: among those columns, a record's absent fields
default to null, while a record's fields outside that column set are
silently dropped; when the batch timestamps are pairwise distinct and fresh,
every record lands as exactly one new appended row. (A first record naming
any non-column key — as the program's own readings do via `temp` — makes
sqlite reject the statement and the whole batch is discarded instead.) -/
theorem column_derivation_amended (s : Store) (d : Dict) (rest : List Dict)
    (hsch : ∀ k ∈ dkeys d, k ∈ schemaCols)
    (hU : ((d :: rest).map (toTableRow (sortStrings (dkeys d)))).Pairwise
      (fun r1 r2 => rowTs r1 ≠ rowTs r2))
    (hF : ∀ r ∈ (d :: rest).map (toTableRow (sortStrings (dkeys d))),
      ¬ hasTs s (rowTs r)) :
    insert_bulk_data s (d :: rest) =
        s ++ (d :: rest).map (toTableRow (sortStrings (dkeys d))) ∧
      ∀ d' ∈ d :: rest, ∀ c ∈ schemaCols,
        dget (toTableRow (sortStrings (dkeys d)) d') c =
          if c ∈ sortStrings (dkeys d) then dget d' c else Value.null := by
  constructor
  · show (if ((sortStrings (dkeys d)).all fun k => decide (k ∈ schemaCols)) = true
        then ((d :: rest).map (toTableRow (sortStrings (dkeys d)))).foldl insertOrIgnore s
        else s) =
      s ++ (d :: rest).map (toTableRow (sortStrings (dkeys d)))
    rw [if_pos (all_keys_schema (dkeys d) hsch)]
    exact foldl_insertOrIgnore_fresh _ s hU hF
  · intro d' _ c hc
    exact dget_toTableRow (sortStrings (dkeys d)) d' c hc

/-- Witness for C3's amended theorem: the two-record batch of the
counterexample, inserted into an empty store; the `ph` column of the second
record is dropped because `ph` is not among the first record's keys. -/
theorem column_derivation_amended_witness :
    (insert_bulk_data [] [cd1, cd2] =
        [] ++ [cd1, cd2].map (toTableRow (sortStrings (dkeys cd1)))) ∧
      dget (toTableRow (sortStrings (dkeys cd1)) cd2) "ph" =
        (if "ph" ∈ sortStrings (dkeys cd1) then dget cd2 "ph" else Value.null) :=
  ⟨(column_derivation_amended [] cd1 [cd2] (by decide!) (by decide!) (by decide!)).1,
   (column_derivation_amended [] cd1 [cd2] (by decide!) (by decide!) (by decide!)).2
     cd2 (by decide!) "ph" (by decide!)⟩

/-! ### The poll cycle of `OpcClientThread.run` (C6) -/

/-- The outcome of a `node.get_value()` call: a numeric value, or a raised
exception. -/
inductive ReadResult where
  | ok (v : ℚ)
  | err
deriving DecidableEq, Repr

/-- Python dict assignment `d[k] = v`: replace the binding if the key exists,
otherwise append it. -/
def dset : Dict → String → Value → Dict
  | [], k, v => [(k, v)]
  | (k', v') :: rest, k, v =>
    if k' = k then (k, v) :: rest else (k', v') :: dset rest k v

theorem dget_dset_self (d : Dict) (k : String) (v : Value) :
    dget (dset d k v) k = v := by
  induction d with
  | nil => simp [dset, dget]
  | cons p rest ih =>
    obtain ⟨k', v'⟩ := p
    simp only [dset]
    by_cases h : k' = k
    · rw [if_pos h]; simp [dget]
    · rw [if_neg h]; simp only [dget, if_neg h]; exact ih

theorem dget_dset_ne (d : Dict) (k n : String) (v : Value) (h : k ≠ n) :
    dget (dset d k v) n = dget d n := by
  induction d with
  | nil => simp [dset, dget, h]
  | cons p rest ih =>
    obtain ⟨k', v'⟩ := p
    simp only [dset]
    by_cases h' : k' = k
    · rw [if_pos h']
      simp only [dget, if_neg h, h', if_neg h]
    · rw [if_neg h']
      simp only [dget]
      by_cases h2 : k' = n
      · rw [if_pos h2, if_pos h2]
      · rw [if_neg h2, if_neg h2]; exact ih

/-- Python truthiness of an optional float (`self.reactor_start_time`,
`start_timestamp`): `None` and `0.0` are both falsy. -/
def pyTruthy : Option ℚ → Bool
  | none => false
  | some q => decide (q ≠ 0)

/-- The body of the `for name, node in nodes.items()` loop in
`OpcClientThread.run`, for one `(name, read outcome)` pair, acting on the
accumulator `(data, reactor_start_time, status_note)`. A raised node read is
caught and records `None` for that name only; the `run_start` node, while the
start marker is unset (falsy), records no value but may set the marker and the
`STARTED` note. -/
def poll_step (now : ℚ) (acc : Dict × Option ℚ × Option String)
    (p : String × ReadResult) : Dict × Option ℚ × Option String :=
  if p.1 = "run_start" ∧ pyTruthy acc.2.1 = false then
    match p.2 with
    | .ok v =>
      if v = 1 then (acc.1, some now, some "STARTED") else acc
    | .err => (dset acc.1 p.1 .null, acc.2.1, acc.2.2)
  else
    match p.2 with
    | .ok v => (dset acc.1 p.1 (.num v), acc.2.1, acc.2.2)
    | .err => (dset acc.1 p.1 .null, acc.2.1, acc.2.2)

/-- One full iteration of the poll loop: start from
`data = {'timestamp': time.time()}`, run every configured node read through
`poll_step`, then tag `bioreactor_status` when a `STARTED` note was set.
Returns the Reading, the new start marker and the note. The function is
total: no combination of read failures aborts the cycle. -/
def poll_cycle (now : ℚ) (reactor_start_time : Option ℚ)
    (nodes : List (String × ReadResult)) : Dict × Option ℚ × Option String :=
  match nodes.foldl (poll_step now)
    ([("timestamp", Value.num now)], reactor_start_time, none) with
  | (data, rst, some s) => (dset data "bioreactor_status" (Value.text s), rst, some s)
  | (data, rst, none) => (data, rst, none)

/-- When `run_start` is not among the polled names, the fold leaves the start
marker and the status note untouched. -/
theorem poll_fold_state (now : ℚ) (nodes : List (String × ReadResult))
    (d : Dict) (rst : Option ℚ) (note : Option String)
    (hrs : "run_start" ∉ nodes.map Prod.fst) :
    (nodes.foldl (poll_step now) (d, rst, note)).2 = (rst, note) := by
  induction nodes generalizing d with
  | nil => rfl
  | cons q rest ih =>
    have hq : q.1 ≠ "run_start" := by
      intro h
      exact hrs (by rw [List.map_cons, ← h]; exact List.mem_cons_self _ _)
    have hrs' : "run_start" ∉ rest.map Prod.fst := by
      intro h; exact hrs (by rw [List.map_cons]; exact List.mem_cons_of_mem _ h)
    rw [List.foldl_cons]
    have hstep : poll_step now (d, rst, note) q =
        (dset d q.1 (match q.2 with | .ok v => Value.num v | .err => Value.null),
          rst, note) := by
      unfold poll_step
      rw [if_neg (by simp [hq])]
      cases q.2 <;> rfl
    rw [hstep]
    exact ih _ hrs'

/-- One `poll_step` never changes the binding of a name other than the one
it processes. -/
theorem dget_poll_step (now : ℚ) (acc : Dict × Option ℚ × Option String)
    (q : String × ReadResult) (n : String) (h : q.1 ≠ n) :
    dget (poll_step now acc q).1 n = dget acc.1 n := by
  obtain ⟨qn, qr⟩ := q
  cases qr with
  | ok v =>
    unfold poll_step
    dsimp only
    split
    · by_cases h1 : v = 1
      · rw [if_pos h1]
      · rw [if_neg h1]
    · exact dget_dset_ne _ _ _ _ h
  | err =>
    unfold poll_step
    dsimp only
    split
    · exact dget_dset_ne _ _ _ _ h
    · exact dget_dset_ne _ _ _ _ h

/-- A name that is not polled keeps its initial dict value through the fold. -/
theorem poll_fold_dget_notMem (now : ℚ) (nodes : List (String × ReadResult))
    (d : Dict) (rst : Option ℚ) (note : Option String) (n : String)
    (hn : n ∉ nodes.map Prod.fst) :
    dget (nodes.foldl (poll_step now) (d, rst, note)).1 n = dget d n := by
  induction nodes generalizing d rst note with
  | nil => rfl
  | cons q rest ih =>
    have hqn : q.1 ≠ n := by
      intro h
      exact hn (by rw [List.map_cons, h]; exact List.mem_cons_self _ _)
    have hn' : n ∉ rest.map Prod.fst := by
      intro h; exact hn (by rw [List.map_cons]; exact List.mem_cons_of_mem _ h)
    rw [List.foldl_cons]
    rcases hsurj : poll_step now (d, rst, note) q with ⟨d', rst', note'⟩
    have hd' : dget d' n = dget d n := by
      have := dget_poll_step now (d, rst, note) q n hqn
      rw [hsurj] at this
      exact this
    rw [ih d' rst' note' hn', hd']

/-- With pairwise-distinct polled names and `run_start` not among them, each
polled name ends up bound to its own read outcome: its value on success,
`None` on a raised read. -/
theorem poll_fold_dget_of_mem (now : ℚ) (nodes : List (String × ReadResult))
    (d : Dict) (rst : Option ℚ) (note : Option String)
    (hnd : (nodes.map Prod.fst).Nodup)
    (hrs : "run_start" ∉ nodes.map Prod.fst)
    (p : String × ReadResult) (hp : p ∈ nodes) :
    dget (nodes.foldl (poll_step now) (d, rst, note)).1 p.1 =
      (match p.2 with | .ok v => Value.num v | .err => Value.null) := by
  induction nodes generalizing d rst note with
  | nil => cases hp
  | cons q rest ih =>
    have hq : q.1 ≠ "run_start" := by
      intro h
      exact hrs (by rw [List.map_cons, ← h]; exact List.mem_cons_self _ _)
    have hrs' : "run_start" ∉ rest.map Prod.fst := by
      intro h; exact hrs (by rw [List.map_cons]; exact List.mem_cons_of_mem _ h)
    have hstep : ∀ dd, poll_step now (dd, rst, note) q =
        (dset dd q.1 (match q.2 with | .ok v => Value.num v | .err => Value.null),
          rst, note) := by
      intro dd
      unfold poll_step
      rw [if_neg (by simp [hq])]
      cases q.2 <;> rfl
    rw [List.foldl_cons, hstep]
    rcases List.mem_cons.mp hp with h1 | h1
    · have hq_not : q.1 ∉ rest.map Prod.fst := (List.nodup_cons.mp hnd).1
      rw [h1]
      rw [poll_fold_dget_notMem now rest _ rst note q.1 hq_not, dget_dset_self]
    · exact ih _ rst note (List.nodup_cons.mp hnd).2 hrs' h1

/-- C6 (isolated node failure): in a cycle where exactly the node of channel
`f` raises and every other configured channel read succeeds, the Reading built
by `poll_cycle` carries the timestamp, binds `None` to `f` alone, and binds
every successfully read channel to its value; the cycle itself never aborts
(`poll_cycle` is total). -/
theorem isolated_node_failure (now : ℚ) (nodes : List (String × ReadResult)) (f : String)
    (hnd : (nodes.map Prod.fst).Nodup)
    (hts : "timestamp" ∉ nodes.map Prod.fst)
    (hrs : "run_start" ∉ nodes.map Prod.fst)
    (hf : (f, ReadResult.err) ∈ nodes)
    (hothers : ∀ p ∈ nodes, p.1 ≠ f → p.2 ≠ ReadResult.err) :
    dget (poll_cycle now none nodes).1 "timestamp" = Value.num now ∧
      dget (poll_cycle now none nodes).1 f = Value.null ∧
      (∀ p ∈ nodes, ∀ v : ℚ, p.2 = ReadResult.ok v →
        dget (poll_cycle now none nodes).1 p.1 = Value.num v) ∧
      (∀ p ∈ nodes, p.1 ≠ f → dget (poll_cycle now none nodes).1 p.1 ≠ Value.null) := by
  have hcycle : (poll_cycle now none nodes).1 =
      (nodes.foldl (poll_step now)
        ([("timestamp", Value.num now)], (none : Option ℚ), (none : Option String))).1 := by
    have hstate := poll_fold_state now nodes [("timestamp", Value.num now)] none none hrs
    unfold poll_cycle
    rcases hres : nodes.foldl (poll_step now)
        ([("timestamp", Value.num now)], (none : Option ℚ), (none : Option String)) with
      ⟨data, rst', note'⟩
    rw [hres] at hstate
    rw [Prod.mk.injEq] at hstate
    obtain ⟨h1, h2⟩ := hstate
    subst h1
    subst h2
    rfl
  refine ⟨?_, ?_, ?_, ?_⟩
  · rw [hcycle, poll_fold_dget_notMem now nodes _ none none _ hts]
    simp [dget]
  · rw [hcycle]
    have := poll_fold_dget_of_mem now nodes [("timestamp", Value.num now)] none none
      hnd hrs (f, ReadResult.err) hf
    exact this
  · intro p hp v hv
    rw [hcycle]
    have := poll_fold_dget_of_mem now nodes [("timestamp", Value.num now)] none none
      hnd hrs p hp
    rw [hv] at this
    exact this
  · intro p hp hpf
    rw [hcycle]
    have := poll_fold_dget_of_mem now nodes [("timestamp", Value.num now)] none none
      hnd hrs p hp
    cases hres : p.2 with
    | ok v =>
      rw [hres] at this
      rw [this]
      intro hc
      cases hc
    | err => exact absurd hres (hothers p hp hpf)

/-- The five-channel read of the spec's isolated-failure scenario: the `do`
node raises, the other four reads succeed. -/
def wnodes : List (String × ReadResult) :=
  [("ph", .ok 7), ("do", .err), ("temperature", .ok 37),
   ("variable1", .ok 1), ("variable2", .ok 2)]

/-- Witness for C6: with the `do` node raising among five configured reads,
only `do` is `None`, successful channels carry their values, and `timestamp`
is present. -/
theorem isolated_node_failure_witness :
    dget (poll_cycle 500 none wnodes).1 "timestamp" = Value.num 500 ∧
      dget (poll_cycle 500 none wnodes).1 "do" = Value.null ∧
      dget (poll_cycle 500 none wnodes).1 "ph" = Value.num 7 ∧
      dget (poll_cycle 500 none wnodes).1 "temperature" = Value.num 37 :=
  ⟨(isolated_node_failure 500 wnodes "do" (by decide!) (by decide!) (by decide!)
      (by decide!) (by decide!)).1,
   (isolated_node_failure 500 wnodes "do" (by decide!) (by decide!) (by decide!)
      (by decide!) (by decide!)).2.1,
   (isolated_node_failure 500 wnodes "do" (by decide!) (by decide!) (by decide!)
      (by decide!) (by decide!)).2.2.1 ("ph", ReadResult.ok 7) (by decide!) 7 rfl,
   (isolated_node_failure 500 wnodes "do" (by decide!) (by decide!) (by decide!)
      (by decide!) (by decide!)).2.2.1 ("temperature", ReadResult.ok 37) (by decide!)
     37 rfl⟩

/-! ### Polling cadence resolution (C8) -/

/-- The outcome of `config.getint('SETTINGS', 'polling_interval_ms')`:
a parsed integer, or a raised `ValueError`/`NoOptionError`. -/
inductive ConfigInt where
  | valid (n : ℤ)
  | invalid
deriving DecidableEq, Repr

/-- Lines 144–146 of `OpcClientThread.run`: `poll_ms` is taken straight from
the config whenever it parses as an integer; only a parse failure is caught,
logged as a warning, and replaced by the default 1000 ms. Returns
`(poll_ms, warned)`. No minimum is enforced here. -/
def resolve_poll_ms (c : ConfigInt) : ℤ × Bool :=
  match c with
  | .valid n => (n, false)
  | .invalid => (1000, true)

/-- `poll_interval_s = poll_ms / 1000.0`. -/
def poll_interval_s (poll_ms : ℤ) : ℚ := (poll_ms : ℚ) / 1000

/-- C8 counterexample: a configured cadence of 50 ms — a valid integer below
the claimed 100 ms minimum — is used as given: no configuration error is
reported and no default is substituted; the loop would sleep 1/20 s. -/
theorem cadence_validation_counterexample :
    resolve_poll_ms (ConfigInt.valid 50) = (50, false) ∧
      poll_interval_s 50 = 1 / 20 := by
  constructor
  · rfl
  · decide!

/-- C8 amended: the acquisition loop substitutes the default cadence of
1000 ms and reports a configuration warning exactly when the configured
cadence fails to parse as an integer; every integer cadence, including values
below the 100 ms minimum (that only the settings UI spinbox enforces), is
used exactly as given. -/
theorem cadence_validation_amended :
    (∀ n : ℤ, resolve_poll_ms (ConfigInt.valid n) = (n, false)) ∧
      resolve_poll_ms ConfigInt.invalid = (1000, true) :=
  ⟨fun _ => rfl, rfl⟩

/-! ### The export pipeline of `DatabaseManager.export_to_excel` (C4, C5, C10)

The export path works on typed rows as `pd.read_sql_query` sees them:
`timestamp REAL PRIMARY KEY` (non-null), one nullable `REAL` per channel,
nullable `TEXT bioreactor_status`. -/

/-- A typed row of the `sensordata` table in the export DataFrame. -/
structure DRow where
  timestamp : ℚ
  cols : List (String × Option ℚ)
  status : Option String
deriving DecidableEq, Repr

/-- The numeric channel columns of the table (every schema column except the
`timestamp` key and the text `bioreactor_status`). -/
def numericCols : List String :=
  ["ph", "ph_setpoint", "do", "do_setpoint", "temperature", "temp_setpoint",
   "variable1", "variable2", "variable3", "variable4", "variable5", "variable6",
   "variable7"]

/-- Lookup of a nullable numeric column in a typed row (`none` if absent). -/
def cget : List (String × Option ℚ) → String → Option ℚ
  | [], _ => none
  | (k', v) :: rest, k => if k' = k then v else cget rest k

/-- `SELECT * FROM sensordata WHERE timestamp BETWEEN start_ts AND end_ts
ORDER BY timestamp ASC`: inclusive bounds, ascending by timestamp. -/
def queryRange (store : List DRow) (a b : ℚ) : List DRow :=
  (store.filter (fun r => decide (a ≤ r.timestamp ∧ r.timestamp ≤ b))).insertionSort
    (fun r1 r2 => r1.timestamp ≤ r2.timestamp)

/-- The mean pandas computes for one column of one group: nulls (NaN) are
excluded; an empty or all-null group yields NaN, modelled as `none`. -/
def meanOpt (xs : List ℚ) : Option ℚ :=
  match xs with
  | [] => none
  | _ => some (xs.sum / xs.length)

/-- Midnight (UTC) of the day of `t`: pandas resample's default
`origin='start_day'` anchor, taken from the earliest index value. -/
def dayAnchor (t : ℚ) : ℚ := 86400 * (⌊t / 86400⌋ : ℤ)

/-- The bin index of time `t` for left-closed bins of width `N` seconds
anchored at `anchor`. -/
def binOf (anchor : ℚ) (N : ℕ) (t : ℚ) : ℤ := ⌊(t - anchor) / (N : ℚ)⌋

/-- The minimum timestamp of a non-empty frame (its first index value once
sorted). -/
def dfMin (r0 : DRow) (rest : List DRow) : ℚ :=
  rest.foldl (fun a r => min a r.timestamp) r0.timestamp

/-- The maximum timestamp of a non-empty frame. -/
def dfMax (r0 : DRow) (rest : List DRow) : ℚ :=
  rest.foldl (fun a r => max a r.timestamp) r0.timestamp

/-- A row of the export DataFrame before the elapsed-time column is added:
the `datetime` index (epoch seconds), the numeric columns — including the
averaged raw `timestamp` column — and the status column (dropped to `none`
on the resampled path, where `mean` discards the text column). -/
structure XRow where
  datetime : ℚ
  cols : List (String × Option ℚ)
  status : Option String
deriving DecidableEq, Repr

/-- The output row of `df.resample(f'{N}S').mean()` for bin `k`: labelled by
the left bin edge, each numeric column the mean of its non-null values among
the source rows falling in the bin (`none` when there are none — an empty
bin is still emitted as an all-null row). -/
def binRow (N : ℕ) (anchor : ℚ) (rows : List DRow) (k : ℤ) : XRow :=
  { datetime := anchor + (k : ℚ) * (N : ℚ),
    cols := ("timestamp",
        meanOpt ((rows.filter (fun r => decide (binOf anchor N r.timestamp = k))).map
          DRow.timestamp)) ::
      numericCols.map (fun c => (c,
        meanOpt ((rows.filter (fun r => decide (binOf anchor N r.timestamp = k))).filterMap
          (fun r => cget r.cols c)))),
    status := none }

/-- `df.resample(f'{N}S').mean()` on a non-empty frame: fixed-width
left-closed bins of `N` seconds anchored at midnight of the first day of the
index (`origin='start_day'`), one output row per bin from the bin holding the
earliest index to the bin holding the latest — empty bins included. -/
def resampleMean (N : ℕ) (rows : List DRow) : List XRow :=
  match rows with
  | [] => []
  | r0 :: rest =>
    (List.range ((binOf (dayAnchor (dfMin r0 rest)) N (dfMax r0 rest)
        - binOf (dayAnchor (dfMin r0 rest)) N (dfMin r0 rest) + 1).toNat)).map
      (fun (i : ℕ) => binRow N (dayAnchor (dfMin r0 rest)) (r0 :: rest)
        (binOf (dayAnchor (dfMin r0 rest)) N (dfMin r0 rest) + (i : ℤ)))

/-- The unresampled path (`interval_s == 0`): each queried row passes through
unchanged, the `datetime` index being its raw timestamp. -/
def passRow (r : DRow) : XRow :=
  { datetime := r.timestamp,
    cols := ("timestamp", some r.timestamp) :: r.cols,
    status := r.status }

/-- The elapsed-time cell: a number of seconds, or the literal string
`"N/A (Reactor not started)"`. -/
inductive EFTVal where
  | seconds (q : ℚ)
  | notStartedMarker
deriving DecidableEq, Repr

/-- A fully assembled export row: `datetime`, the numeric columns, the status
column, and the `EFT_seconds` cell. -/
structure ExportRow where
  datetime : ℚ
  cols : List (String × Option ℚ)
  status : Option String
  eft : EFTVal
deriving DecidableEq, Repr

/-- `SELECT timestamp FROM sensordata WHERE bioreactor_status = 'STARTED'
ORDER BY timestamp ASC LIMIT 1` over the FULL store: the least `STARTED`
timestamp, when one exists. -/
def startAnchor (store : List DRow) : Option ℚ :=
  match (store.filter (fun r => decide (r.status = some "STARTED"))).map DRow.timestamp with
  | [] => none
  | t :: ts => some (ts.foldl min t)

/-- The `EFT_seconds` column: `if start_timestamp:` is a Python truthiness
test, so the elapsed time `datetime - start_timestamp` is emitted only when
the anchor is present AND nonzero; otherwise every row gets the
"N/A (Reactor not started)" marker. -/
def addEFT (anchor : Option ℚ) (x : XRow) : ExportRow :=
  { datetime := x.datetime, cols := x.cols, status := x.status,
    eft := if pyTruthy anchor = true then EFTVal.seconds (x.datetime - anchor.getD 0)
           else EFTVal.notStartedMarker }

/-- `DatabaseManager.export_to_excel` (the data-shaping part, without the
Excel serialization and column renaming): query the inclusive range, fail
with the "No data found" message on an empty result, resample when
`interval_s > 0`, and annotate every row with elapsed time anchored at the
earliest `STARTED` row of the full store. One failure path is intrinsic:
`df.set_index('datetime', inplace=True)` REMOVES the `datetime` column, and
only the resample branch restores it via `.reset_index()`; so with
`interval_s == 0` and a truthy `start_timestamp` the code's
`df['datetime']` raises `KeyError: 'datetime'`, the `except` catches it, and
the export returns `(False, "An error occurred: 'datetime'")` — no rows. -/
def export_to_excel (store : List DRow) (start_ts end_ts : ℚ) (interval_s : ℕ) :
    Except String (List ExportRow) :=
  match queryRange store start_ts end_ts with
  | [] => Except.error "No data found in the selected time range."
  | r0 :: rest =>
    if 0 < interval_s then
      Except.ok ((resampleMean interval_s (r0 :: rest)).map (addEFT (startAnchor store)))
    else if pyTruthy (startAnchor store) = true then
      Except.error "An error occurred: 'datetime'"
    else
      Except.ok (((r0 :: rest).map passRow).map (addEFT (startAnchor store)))

/-- Unfolding of `export_to_excel` on a non-empty query result. -/
theorem export_to_excel_cons (store : List DRow) (a b : ℚ) (N : ℕ) (r0 : DRow)
    (rest : List DRow) (hq : queryRange store a b = r0 :: rest) :
    export_to_excel store a b N =
      if 0 < N then
        Except.ok ((resampleMean N (r0 :: rest)).map (addEFT (startAnchor store)))
      else if pyTruthy (startAnchor store) = true then
        Except.error "An error occurred: 'datetime'"
      else
        Except.ok (((r0 :: rest).map passRow).map (addEFT (startAnchor store))) := by
  unfold export_to_excel
  rw [hq]

/-- C10: when the earliest `STARTED` row of the store has timestamp 0, the
truthiness test treats the anchor as absent and every exported row gets the
"not started" marker instead of elapsed seconds. -/
theorem zero_anchor_not_started (store : List DRow) (a b : ℚ) (N : ℕ)
    (l : List ExportRow) (h0 : startAnchor store = some 0)
    (hok : export_to_excel store a b N = Except.ok l) :
    ∀ x ∈ l, x.eft = EFTVal.notStartedMarker := by
  intro x hx
  rcases hq : queryRange store a b with _ | ⟨r0, rest⟩
  · unfold export_to_excel at hok
    rw [hq] at hok
    cases hok
  · rw [export_to_excel_cons store a b N r0 rest hq] at hok
    by_cases hN : 0 < N
    · rw [if_pos hN] at hok
      injection hok with hok
      rw [← hok] at hx
      rcases List.mem_map.mp hx with ⟨y, _, hy⟩
      rw [← hy, h0]
      simp [addEFT, pyTruthy]
    · rw [if_neg hN, h0] at hok
      rw [if_neg (by simp [pyTruthy])] at hok
      injection hok with hok
      rw [← hok] at hx
      rcases List.mem_map.mp hx with ⟨y, _, hy⟩
      rw [← hy]
      simp [addEFT, pyTruthy]

instance {ε α : Type} [DecidableEq ε] [DecidableEq α] : DecidableEq (Except ε α) :=
  fun a b =>
    match a, b with
    | .error e1, .error e2 =>
      if h : e1 = e2 then isTrue (by rw [h])
      else isFalse (fun hc => h (by injection hc))
    | .error _, .ok _ => isFalse (fun hc => Except.noConfusion hc)
    | .ok _, .error _ => isFalse (fun hc => Except.noConfusion hc)
    | .ok v1, .ok v2 =>
      if h : v1 = v2 then isTrue (by rw [h])
      else isFalse (fun hc => h (by injection hc))

/-- A store whose only `STARTED` row is at timestamp 0, for the C10 witness. -/
def wstore10 : List DRow :=
  [⟨0, [("ph", some 5)], some "STARTED"⟩, ⟨50, [("ph", some 6)], none⟩]

/-- The concrete export of `wstore10` over `[0, 100]` unresampled. -/
def wexp10 : List ExportRow :=
  [⟨0, [("timestamp", some 0), ("ph", some 5)], some "STARTED", EFTVal.notStartedMarker⟩,
   ⟨50, [("timestamp", some 50), ("ph", some 6)], none, EFTVal.notStartedMarker⟩]

/-- Witness for C10: the earliest `STARTED` row sits at timestamp 0 and the
exported rows carry the "not started" marker. -/
theorem zero_anchor_not_started_witness :
    startAnchor wstore10 = some 0 ∧
      export_to_excel wstore10 0 100 0 = Except.ok wexp10 ∧
      (wexp10.get ⟨0, by decide!⟩).eft = EFTVal.notStartedMarker ∧
      (wexp10.get ⟨1, by decide!⟩).eft = EFTVal.notStartedMarker :=
  ⟨by decide!, by decide!,
    zero_anchor_not_started wstore10 0 100 0 wexp10 (by decide!) (by decide!)
      (wexp10.get ⟨0, by decide!⟩) (by decide!),
    zero_anchor_not_started wstore10 0 100 0 wexp10 (by decide!) (by decide!)
      (wexp10.get ⟨1, by decide!⟩) (by decide!)⟩

/-- A store with a `STARTED` row at timestamp 0 and a data row at 90, for the
C5 counterexample. -/
def cstore5 : List DRow :=
  [⟨0, [("ph", some 5)], some "STARTED"⟩, ⟨90, [("ph", some 6)], none⟩]

/-- C5 counterexample: a `STARTED` row exists (at t = 0), yet the export
emits the "not started" marker for every row instead of elapsed seconds
(0 and 90), because the anchor is tested for truthiness, not presence. -/
theorem elapsed_anchor_counterexample :
    (cstore5.filter (fun r => decide (r.status = some "STARTED"))).length = 1 ∧
      (export_to_excel cstore5 0 100 0).toOption.map (List.map ExportRow.eft) =
        some [EFTVal.notStartedMarker, EFTVal.notStartedMarker] := by
  decide!

/-- A store with rows at t = 0 and t = 120 only, for the C4 counterexample. -/
def cstore4 : List DRow :=
  [⟨0, [("ph", some 7)], none⟩, ⟨120, [("ph", some 8)], none⟩]

/-- C4 counterexample: resampling `cstore4` over `[0, 200]` with 60-second
bins emits THREE rows — the source-row-free bin `[60, 120)` is not omitted,
it appears with a null mean — while the claim predicts two rows. -/
theorem resample_counterexample :
    (export_to_excel cstore4 0 200 60).toOption.map
        (List.map (fun r => (r.datetime, cget r.cols "ph"))) =
      some [(0, some 7), (60, none), (120, some 8)] := by
  decide!

/-! ### Elapsed-time anchoring (C5) -/

theorem foldl_min_le (ts : List ℚ) (t : ℚ) : ts.foldl min t ≤ t := by
  induction ts generalizing t with
  | nil => exact le_refl t
  | cons v rest ih => exact le_trans (ih (min t v)) (min_le_left t v)

theorem foldl_min_le_mem (ts : List ℚ) (t u : ℚ) (h : u ∈ ts) : ts.foldl min t ≤ u := by
  induction ts generalizing t with
  | nil => cases h
  | cons v rest ih =>
    rcases List.mem_cons.mp h with h1 | h1
    · rw [List.foldl_cons, h1]
      exact le_trans (foldl_min_le rest (min t v)) (min_le_right t v)
    · exact ih _ h1

theorem foldl_min_mem (ts : List ℚ) (t : ℚ) :
    ts.foldl min t = t ∨ ts.foldl min t ∈ ts := by
  induction ts generalizing t with
  | nil => exact Or.inl rfl
  | cons v rest ih =>
    rcases ih (min t v) with h | h
    · rcases min_cases t v with ⟨h1, _⟩ | ⟨h1, _⟩
      · exact Or.inl (by rw [List.foldl_cons, h, h1])
      · exact Or.inr (by rw [List.foldl_cons, h, h1]; exact List.mem_cons_self _ _)
    · exact Or.inr (List.mem_cons_of_mem _ (by rw [List.foldl_cons]; exact h))

/-- `startAnchor` really is the least `STARTED` timestamp of the full store. -/
theorem startAnchor_isMin (store : List DRow) (t : ℚ) (h : startAnchor store = some t) :
    (∃ r ∈ store, r.status = some "STARTED" ∧ r.timestamp = t) ∧
      ∀ r ∈ store, r.status = some "STARTED" → t ≤ r.timestamp := by
  unfold startAnchor at h
  rcases hf : (store.filter (fun r => decide (r.status = some "STARTED"))).map DRow.timestamp
    with _ | ⟨t0, ts⟩
  · rw [hf] at h; cases h
  · rw [hf] at h
    injection h with h
    constructor
    · have hmem : t ∈ t0 :: ts := by
        rcases foldl_min_mem ts t0 with h1 | h1
        · rw [h] at h1; rw [← h1]; exact List.mem_cons_self _ _
        · rw [h] at h1; exact List.mem_cons_of_mem _ h1
      rw [← hf] at hmem
      rcases List.mem_map.mp hmem with ⟨r, hr, hrt⟩
      rcases List.mem_filter.mp hr with ⟨hrs, hrst⟩
      exact ⟨r, hrs, of_decide_eq_true hrst, hrt⟩
    · intro r hr hst
      have hrf : r ∈ store.filter (fun r => decide (r.status = some "STARTED")) :=
        List.mem_filter.mpr ⟨hr, decide_eq_true hst⟩
      have hrt : r.timestamp ∈ t0 :: ts := by
        rw [← hf]
        exact List.mem_map_of_mem DRow.timestamp hrf
      rcases List.mem_cons.mp hrt with h1 | h1
      · rw [← h, h1]
        exact foldl_min_le ts t0
      · rw [← h]
        exact foldl_min_le_mem ts t0 _ h1

/-- Every exported row's elapsed-time cell, as a function of the anchor's
truthiness. -/
theorem export_eft (store : List DRow) (a b : ℚ) (N : ℕ) (l : List ExportRow)
    (hok : export_to_excel store a b N = Except.ok l) :
    ∀ x ∈ l, x.eft =
      (if pyTruthy (startAnchor store) = true
        then EFTVal.seconds (x.datetime - (startAnchor store).getD 0)
        else EFTVal.notStartedMarker) := by
  intro x hx
  rcases hq : queryRange store a b with _ | ⟨r0, rest⟩
  · unfold export_to_excel at hok
    rw [hq] at hok
    cases hok
  · rw [export_to_excel_cons store a b N r0 rest hq] at hok
    by_cases hN : 0 < N
    · rw [if_pos hN] at hok
      injection hok with hok
      rw [← hok] at hx
      rcases List.mem_map.mp hx with ⟨y, _, hy⟩
      rw [← hy]
      simp [addEFT]
    · rw [if_neg hN] at hok
      by_cases hp : pyTruthy (startAnchor store) = true
      · rw [if_pos hp] at hok
        cases hok
      · rw [if_neg hp] at hok
        injection hok with hok
        rw [← hok] at hx
        rcases List.mem_map.mp hx with ⟨y, _, hy⟩
        rw [← hy]
        simp [addEFT]

/-- C5 amended: the elapsed-time anchor is the earliest `STARTED` timestamp
of the FULL store (independent of the export window); when it exists and is
truthy (nonzero), every exported row's elapsed time is its datetime minus the
anchor; when no `STARTED` row exists — and likewise when the earliest one
sits at timestamp 0 (see the counterexample) — every row carries the
"N/A (Reactor not started)" marker. With a truthy anchor rows are only ever
exported on the resampled path: on the unresampled path the code fails with
the caught `KeyError: 'datetime'` and emits no rows, which the `= Except.ok`
hypotheses below account for. -/
theorem elapsed_time_anchoring_amended :
    (∀ (store : List DRow) (a b : ℚ) (N : ℕ) (t : ℚ) (l : List ExportRow),
        startAnchor store = some t → t ≠ 0 →
        export_to_excel store a b N = Except.ok l →
        ∀ x ∈ l, x.eft = EFTVal.seconds (x.datetime - t)) ∧
      (∀ (store : List DRow) (a b : ℚ) (N : ℕ) (l : List ExportRow),
        startAnchor store = none →
        export_to_excel store a b N = Except.ok l →
        ∀ x ∈ l, x.eft = EFTVal.notStartedMarker) ∧
      (∀ (store : List DRow) (t : ℚ), startAnchor store = some t →
        (∃ r ∈ store, r.status = some "STARTED" ∧ r.timestamp = t) ∧
        ∀ r ∈ store, r.status = some "STARTED" → t ≤ r.timestamp) := by
  refine ⟨?_, ?_, fun store t h => startAnchor_isMin store t h⟩
  · intro store a b N t l hanc hne hok x hx
    have := export_eft store a b N l hok x hx
    rw [hanc] at this
    simpa [pyTruthy, hne] using this
  · intro store a b N l hanc hok x hx
    have := export_eft store a b N l hok x hx
    rw [hanc] at this
    simpa [pyTruthy] using this

/-- The spec's anchoring example: `STARTED` at t = 1000, a data row at 1090. -/
def wstore5 : List DRow :=
  [⟨1000, [("ph", some 5)], some "STARTED"⟩, ⟨1090, [("ph", some 6)], none⟩]

/-- The concrete resampled export of `wstore5` over `[1000, 2000]` with
10-second bins: labels 1000..1090, the eight interior bins empty, elapsed
times 0..90 seconds — the final row carrying the spec's 90 s. -/
def wexp5 : List ExportRow :=
  (List.range 10).map (fun i =>
    { datetime := 1000 + 10 * (i : ℚ),
      cols := ("timestamp",
          if i = 0 then some 1000 else if i = 9 then some 1090 else none) ::
        numericCols.map (fun c => (c,
          if c = "ph" then
            (if i = 0 then some 5 else if i = 9 then some 6 else none)
          else none)),
      status := none,
      eft := EFTVal.seconds (10 * (i : ℚ)) })

/-- Witness for C5's amended theorem: anchor 1000; resampled at 10 s the data
row at t = 1090 exports elapsed time 90 seconds. (The witness exercises the
resampled path: on the unresampled path a truthy anchor makes the export
fail with the caught `KeyError: 'datetime'`.) -/
theorem elapsed_time_anchoring_amended_witness :
    startAnchor wstore5 = some 1000 ∧
      export_to_excel wstore5 1000 2000 10 = Except.ok wexp5 ∧
      (wexp5.get ⟨9, by decide!⟩).eft =
        EFTVal.seconds ((wexp5.get ⟨9, by decide!⟩).datetime - 1000) ∧
      (wexp5.get ⟨9, by decide!⟩).eft = EFTVal.seconds 90 :=
  ⟨by decide!, by decide!,
    elapsed_time_anchoring_amended.1 wstore5 1000 2000 10 1000 wexp5 (by decide!)
      (by decide!) (by decide!) (wexp5.get ⟨9, by decide!⟩) (by decide!),
    by decide!⟩

/-! ### Resample semantics (C4) -/

/-- The minimum timestamp of a queried frame (0 on the empty frame, which the
export rejects anyway). -/
def qMin : List DRow → ℚ
  | [] => 0
  | r0 :: rest => dfMin r0 rest

/-- The maximum timestamp of a queried frame. -/
def qMax : List DRow → ℚ
  | [] => 0
  | r0 :: rest => dfMax r0 rest

theorem cget_cons (k : String) (v : Option ℚ) (rest : List (String × Option ℚ))
    (c : String) : cget ((k, v) :: rest) c = if k = c then v else cget rest c := rfl

theorem cget_map_keys (l : List String) (g : String → Option ℚ) (c : String)
    (hc : c ∈ l) : cget (l.map (fun k => (k, g k))) c = g c := by
  induction l with
  | nil => cases hc
  | cons k rest ih =>
    rw [List.map_cons, cget_cons]
    by_cases h : k = c
    · rw [if_pos h, h]
    · rw [if_neg h]
      rcases List.mem_cons.mp hc with h1 | h1
      · exact absurd h1.symm h
      · exact ih h1

/-- Reading a numeric channel out of a resampled bin row gives the mean of
that channel's non-null values among the bin's source rows. -/
theorem cget_binRow (N : ℕ) (anchor : ℚ) (rows : List DRow) (k : ℤ) (c : String)
    (hc : c ∈ numericCols) :
    cget (binRow N anchor rows k).cols c =
      meanOpt ((rows.filter (fun r => decide (binOf anchor N r.timestamp = k))).filterMap
        (fun r => cget r.cols c)) := by
  have hne : ("timestamp" : String) ≠ c := by
    intro h
    rw [← h] at hc
    revert hc
    decide!
  show cget (("timestamp", _) :: numericCols.map _) c = _
  rw [cget_cons, if_neg hne]
  exact cget_map_keys numericCols _ c hc

/-- A timestamp falls in bin `k` exactly when it lies in the left-closed
width-`N` window starting at the bin's label `anchor + k * N`. -/
theorem binOf_eq_iff (anchor t : ℚ) (N : ℕ) (hN : 0 < N) (k : ℤ) :
    binOf anchor N t = k ↔
      anchor + (k : ℚ) * N ≤ t ∧ t < anchor + (k : ℚ) * N + N := by
  have hN' : (0 : ℚ) < (N : ℚ) := by exact_mod_cast hN
  unfold binOf
  rw [Int.floor_eq_iff, le_div_iff₀ hN', div_lt_iff₀ hN']
  have hexp : ((k : ℚ) + 1) * (N : ℚ) = (k : ℚ) * N + N := by ring
  constructor
  · rintro ⟨h1, h2⟩
    rw [hexp] at h2
    exact ⟨by linarith, by linarith⟩
  · rintro ⟨h1, h2⟩
    refine ⟨by linarith, ?_⟩
    rw [hexp]
    linarith

theorem resampleMean_length (N : ℕ) (r0 : DRow) (rest : List DRow) :
    (resampleMean N (r0 :: rest)).length =
      (binOf (dayAnchor (dfMin r0 rest)) N (dfMax r0 rest)
        - binOf (dayAnchor (dfMin r0 rest)) N (dfMin r0 rest) + 1).toNat := by
  unfold resampleMean
  rw [List.length_map, List.length_range]

theorem resampleMean_get (N : ℕ) (r0 : DRow) (rest : List DRow)
    (i : ℕ) (hi : i < (resampleMean N (r0 :: rest)).length) :
    (resampleMean N (r0 :: rest)).get ⟨i, hi⟩ =
      binRow N (dayAnchor (dfMin r0 rest)) (r0 :: rest)
        (binOf (dayAnchor (dfMin r0 rest)) N (dfMin r0 rest) + (i : ℤ)) := by
  simp only [resampleMean, List.get_eq_getElem, List.getElem_map, List.getElem_range]

instance : IsTotal DRow (fun r1 r2 => r1.timestamp ≤ r2.timestamp) :=
  ⟨fun a b => le_total a.timestamp b.timestamp⟩

instance : IsTrans DRow (fun r1 r2 => r1.timestamp ≤ r2.timestamp) :=
  ⟨fun _ _ _ h1 h2 => le_trans h1 h2⟩

/-- C4 amended: with `interval_s > 0` the export emits one row per
fixed-width left-closed time bin of `interval_s` seconds anchored at midnight
of the earliest queried row's day (epoch-anchored exactly when the interval
divides 86400 s), covering EVERY bin from the first to the last occupied one
— a bin containing no source rows is emitted with a null mean, not omitted —
and each numeric column holds the arithmetic mean of its non-null values
among the rows of that bin. With `interval_s == 0`, WHEN the export returns
rows at all, they pass through unresampled: exactly the raw queried rows,
sorted ascending by timestamp, a permutation of the in-range stored rows;
but when the store has a truthy `STARTED` anchor the unresampled export
instead fails with the caught `KeyError: 'datetime'` (`set_index` removed
the column and only the resample branch restores it). -/
theorem resample_semantics_amended :
    (∀ (store : List DRow) (a b : ℚ) (N : ℕ) (l : List ExportRow),
        0 < N → export_to_excel store a b N = Except.ok l →
        l.length = (binOf (dayAnchor (qMin (queryRange store a b))) N
            (qMax (queryRange store a b))
          - binOf (dayAnchor (qMin (queryRange store a b))) N
            (qMin (queryRange store a b)) + 1).toNat ∧
        ∀ (i : ℕ) (hi : i < l.length), ∀ c ∈ numericCols,
          (l.get ⟨i, hi⟩).datetime = dayAnchor (qMin (queryRange store a b)) +
            ((binOf (dayAnchor (qMin (queryRange store a b))) N
              (qMin (queryRange store a b)) + (i : ℤ) : ℤ) : ℚ) * N ∧
          cget (l.get ⟨i, hi⟩).cols c =
            meanOpt (((queryRange store a b).filter (fun r =>
              decide ((l.get ⟨i, hi⟩).datetime ≤ r.timestamp ∧
                r.timestamp < (l.get ⟨i, hi⟩).datetime + N))).filterMap
              (fun r => cget r.cols c))) ∧
      (∀ (store : List DRow) (a b : ℚ) (l : List ExportRow),
        export_to_excel store a b 0 = Except.ok l →
        l.map (fun x => (x.datetime, x.cols, x.status)) =
          (queryRange store a b).map (fun r =>
            (r.timestamp, ("timestamp", some r.timestamp) :: r.cols, r.status)) ∧
        List.Pairwise (fun r1 r2 : DRow => r1.timestamp ≤ r2.timestamp)
          (queryRange store a b) ∧
        (queryRange store a b).Perm (store.filter (fun r =>
          decide (a ≤ r.timestamp ∧ r.timestamp ≤ b)))) ∧
      (∀ (store : List DRow) (a b t : ℚ),
        startAnchor store = some t → t ≠ 0 →
        queryRange store a b ≠ [] →
        export_to_excel store a b 0 =
          Except.error "An error occurred: 'datetime'") := by
  refine ⟨?_, ?_, ?_⟩
  · intro store a b N l hN hok
    rcases hq : queryRange store a b with _ | ⟨r0, rest⟩
    · unfold export_to_excel at hok
      rw [hq] at hok
      cases hok
    · rw [export_to_excel_cons store a b N r0 rest hq, if_pos hN] at hok
      injection hok with hok
      subst hok
      constructor
      · rw [List.length_map, resampleMean_length]
        rfl
      · intro i hi c hc
        have hi' : i < (resampleMean N (r0 :: rest)).length := by
          rw [List.length_map] at hi
          exact hi
        have hget : ((resampleMean N (r0 :: rest)).map
              (addEFT (startAnchor store))).get ⟨i, hi⟩ =
            addEFT (startAnchor store) ((resampleMean N (r0 :: rest)).get ⟨i, hi'⟩) := by
          simp only [List.get_eq_getElem, List.getElem_map]
        rw [hget, resampleMean_get N r0 rest i hi']
        have hdt : (addEFT (startAnchor store)
            (binRow N (dayAnchor (dfMin r0 rest)) (r0 :: rest)
              (binOf (dayAnchor (dfMin r0 rest)) N (dfMin r0 rest) + (i : ℤ)))).datetime =
            dayAnchor (dfMin r0 rest) +
              ((binOf (dayAnchor (dfMin r0 rest)) N (dfMin r0 rest) + (i : ℤ) : ℤ) : ℚ) * N :=
          rfl
        refine ⟨hdt, ?_⟩
        rw [hdt]
        show cget (binRow N (dayAnchor (dfMin r0 rest)) (r0 :: rest)
            (binOf (dayAnchor (dfMin r0 rest)) N (dfMin r0 rest) + (i : ℤ))).cols c = _
        rw [cget_binRow N _ _ _ c hc]
        congr 1
        congr 1
        apply List.filter_congr
        intro r _
        rw [decide_eq_decide]
        exact binOf_eq_iff (dayAnchor (dfMin r0 rest)) r.timestamp N hN _
  · intro store a b l hok
    rcases hq : queryRange store a b with _ | ⟨r0, rest⟩
    · unfold export_to_excel at hok
      rw [hq] at hok
      cases hok
    · rw [export_to_excel_cons store a b 0 r0 rest hq, if_neg (lt_irrefl 0)] at hok
      by_cases hp : pyTruthy (startAnchor store) = true
      · rw [if_pos hp] at hok
        cases hok
      · rw [if_neg hp] at hok
        injection hok with hok
        subst hok
        refine ⟨?_, ?_, ?_⟩
        · rw [List.map_map, List.map_map]
          rfl
        · rw [← hq]
          show List.Sorted (fun r1 r2 : DRow => r1.timestamp ≤ r2.timestamp)
            (queryRange store a b)
          unfold queryRange
          exact List.sorted_insertionSort _ _
        · rw [← hq]
          unfold queryRange
          exact List.perm_insertionSort _ _
  · intro store a b t hanc hne hq
    rcases hqr : queryRange store a b with _ | ⟨r0, rest⟩
    · exact absurd hqr hq
    · rw [export_to_excel_cons store a b 0 r0 rest hqr, if_neg (lt_irrefl 0), if_pos]
      rw [hanc]
      simp [pyTruthy, hne]

/-- The concrete resampled export of `cstore4` over `[0, 200]` at 60 s:
bins 0, 60 (empty: all-null) and 120. -/
def wexp4 : List ExportRow :=
  [⟨0, ("timestamp", some 0) ::
      numericCols.map (fun c => (c, if c = "ph" then some 7 else none)),
    none, EFTVal.notStartedMarker⟩,
   ⟨60, ("timestamp", none) :: numericCols.map (fun c => (c, (none : Option ℚ))),
    none, EFTVal.notStartedMarker⟩,
   ⟨120, ("timestamp", some 120) ::
      numericCols.map (fun c => (c, if c = "ph" then some 8 else none)),
    none, EFTVal.notStartedMarker⟩]

/-- A store whose two rows arrive out of timestamp order, for the
unresampled half of the C4 witness. -/
def wstore4b : List DRow :=
  [⟨30, [("ph", some 2)], none⟩, ⟨10, [("ph", some 1)], none⟩]

/-- The concrete unresampled export of `wstore4b` over `[0, 100]`: the raw
rows, sorted ascending by timestamp. -/
def wexp4b : List ExportRow :=
  [⟨10, [("timestamp", some 10), ("ph", some 1)], none, EFTVal.notStartedMarker⟩,
   ⟨30, [("timestamp", some 30), ("ph", some 2)], none, EFTVal.notStartedMarker⟩]

/-- A one-row store with a truthy `STARTED` anchor, for the KeyError half of
the C4 witness. -/
def wstore4c : List DRow := [⟨20, [("ph", some 3)], some "STARTED"⟩]

/-- Witness for C4's amended theorem: `cstore4` resampled at 60 s yields the
three bins 0, 60 and 120 — the empty middle bin emitted with null means —
the unresampled export of `wstore4b` passes the raw rows through sorted by
timestamp, and the unresampled export of `wstore4c` (truthy anchor) fails
with the caught `KeyError: 'datetime'`. -/
theorem resample_semantics_amended_witness :
    (export_to_excel cstore4 0 200 60 = Except.ok wexp4 ∧
      wexp4.length = (binOf (dayAnchor (qMin (queryRange cstore4 0 200))) 60
          (qMax (queryRange cstore4 0 200))
        - binOf (dayAnchor (qMin (queryRange cstore4 0 200))) 60
          (qMin (queryRange cstore4 0 200)) + 1).toNat ∧
      (wexp4.get ⟨1, by decide!⟩).datetime = dayAnchor (qMin (queryRange cstore4 0 200)) +
          ((binOf (dayAnchor (qMin (queryRange cstore4 0 200))) 60
            (qMin (queryRange cstore4 0 200)) + ((1 : ℕ) : ℤ) : ℤ) : ℚ) * ((60 : ℕ) : ℚ) ∧
      cget (wexp4.get ⟨1, by decide!⟩).cols "ph" =
        meanOpt (((queryRange cstore4 0 200).filter (fun r =>
          decide ((wexp4.get ⟨1, by decide!⟩).datetime ≤ r.timestamp ∧
            r.timestamp < (wexp4.get ⟨1, by decide!⟩).datetime + ((60 : ℕ) : ℚ)))).filterMap
          (fun r => cget r.cols "ph"))) ∧
    (export_to_excel wstore4b 0 100 0 = Except.ok wexp4b ∧
      (wexp4b.map (fun x => (x.datetime, x.cols, x.status)) =
        (queryRange wstore4b 0 100).map (fun r =>
          (r.timestamp, ("timestamp", some r.timestamp) :: r.cols, r.status)) ∧
      List.Pairwise (fun r1 r2 : DRow => r1.timestamp ≤ r2.timestamp)
        (queryRange wstore4b 0 100) ∧
      (queryRange wstore4b 0 100).Perm (wstore4b.filter (fun r =>
        decide ((0 : ℚ) ≤ r.timestamp ∧ r.timestamp ≤ 100))))) ∧
    export_to_excel wstore4c 0 100 0 = Except.error "An error occurred: 'datetime'" :=
  ⟨⟨by decide!,
    (resample_semantics_amended.1 cstore4 0 200 60 wexp4 (by decide!) (by decide!)).1,
    ((resample_semantics_amended.1 cstore4 0 200 60 wexp4 (by decide!) (by decide!)).2
        1 (by decide!) "ph" (by decide!)).1,
    ((resample_semantics_amended.1 cstore4 0 200 60 wexp4 (by decide!) (by decide!)).2
        1 (by decide!) "ph" (by decide!)).2⟩,
   ⟨by decide!,
    resample_semantics_amended.2.1 wstore4b 0 100 wexp4b (by decide!)⟩,
   resample_semantics_amended.2.2 wstore4c 0 100 20 (by decide!) (by decide!)
     (by decide!)⟩

end Bioreactor
